import Mathlib

/-!
# Verification of the ShivyC recursive-descent parser (`parser.py`)

Shallow embedding of the parser: each `expect_*` method of the `Parser` class
becomes a Lean function threading the mutable `self.errors` log explicitly.
Python exceptions that are not `CompilerError` raises (in particular the
`IndexError` from an out-of-range `tokens[index]` subscript) are modelled as a
`crashed` outcome carrying the error log at the moment of the crash.
-/

namespace ShivyC

/-- Modelled from the spec: the token kinds exported by the `token_kinds`
module, which is not part of the sources under verification.  §3 describes a
kind as "an enumerated category such as keyword, punctuation, literal"; the
parser references `int_kw`, `main`, `open_paren`, `close_paren`, `open_brack`,
`close_brack`, `return_kw`, `semicolon` and `number`; `identifier` stands for
the lexer's category for any other word (such as a stray `extra`). -/
inductive TokenKind where
  | int_kw
  | main
  | open_paren
  | close_paren
  | open_brack
  | close_brack
  | return_kw
  | semicolon
  | number
  | identifier
deriving DecidableEq, Repr, Inhabited

/-- Modelled from the spec: a token as produced by the external lexer (§3):
"attributes = kind, textual content, originating file name, line number". -/
structure Token where
  kind : TokenKind
  content : String
  file_name : String
  line_num : Nat
deriving DecidableEq, Repr, Inhabited

/-- Modelled from the spec: the error value raised by the parser (§6):
"a human-readable message plus optional (file name, line number)".  The
`CompilerError` class itself lives in the `errors` module, outside the sources
under verification; a one-argument construction leaves both location fields
empty. -/
structure CompilerError where
  message : String
  file_name : Option String
  line_num : Option Nat
deriving DecidableEq, Repr

/-- Modelled from the spec: AST node variants (§3): ProgramRoot holds an
ordered sequence of statement nodes, ReturnStatement holds one expression
node, NumberLiteral holds the originating token.  The `ast` module defining
`MainNode`, `ReturnNode` and `NumberNode` is not part of the sources under
verification. -/
inductive ASTNode where
  | MainNode (nodes : List ASTNode)
  | ReturnNode (child : ASTNode)
  | NumberNode (tok : Token)

/-- The three message styles `Parser.AT`, `Parser.GOT`, `Parser.AFTER`
(integer constants 1, 2, 3 in the source). -/
inductive MsgType where
  | AT
  | GOT
  | AFTER
deriving DecidableEq, Repr

/-- The `self.errors` log: pairs of a generated `CompilerError` and the token
index at which the failed attempt occurred. -/
abbrev Errors := List (CompilerError × Nat)

/-- Embedding of `Parser.make_error` (parser.py lines 157-193).  The index is an `Int`
because the source clamps indices `<= 0`.  List accesses use `getD`; every
access is within bounds in the branch where it occurs, as the boundary
normalisation guarantees. -/
def make_error (message : String) (index : Int) (tokens : List Token)
    (message_type : MsgType) : CompilerError :=
  if tokens.length = 0 then
    CompilerError.mk (message ++ " at beginning of source") none none
  else
    -- Boundary normalisation: an index past the end forces the AFTER form;
    -- an index at or below zero is clamped to 0 and AFTER degrades to GOT.
    let norm : Int × MsgType :=
      if index ≥ (tokens.length : Int) then ((tokens.length : Int), MsgType.AFTER)
      else if index ≤ 0 then
        (0, if message_type = MsgType.AFTER then MsgType.GOT else message_type)
      else (index, message_type)
    match norm.2 with
    | MsgType.AT =>
        let tok := tokens.getD norm.1.toNat default
        CompilerError.mk (message ++ " at \x27" ++ tok.content ++ "\x27")
          (some tok.file_name) (some tok.line_num)
    | MsgType.GOT =>
        let tok := tokens.getD norm.1.toNat default
        CompilerError.mk (message ++ ", got \x27" ++ tok.content ++ "\x27")
          (some tok.file_name) (some tok.line_num)
    | MsgType.AFTER =>
        let tok := tokens.getD (norm.1 - 1).toNat default
        CompilerError.mk (message ++ " after \x27" ++ tok.content ++ "\x27")
          (some tok.file_name) (some tok.line_num)

/-- Embedding of `Parser.add_error` (parser.py lines 141-155): appends the generated error
to the log and, "for convenience", also returns the failure sentinel
`(None, 0)`. -/
def add_error (errors : Errors) (message : String) (index : Nat)
    (tokens : List Token) (message_type : MsgType) :
    (Option ASTNode × Nat) × Errors :=
  ((none, 0), errors ++ [(make_error message index tokens message_type, index)])

/-- Embedding of `Parser.match_tokens` (parser.py lines 116-129).  Python returns `False`
in the too-short branch and `0` in the kind-mismatch branch; both are falsy
and equal to `0`, so both are embedded as `0`. -/
def match_tokens (tokens : List Token) (kinds_expected : List TokenKind) : Nat :=
  if tokens.length < kinds_expected.length then 0
  else if (kinds_expected.zip tokens).all (fun p => p.1 == p.2.kind) then
    kinds_expected.length
  else 0

/-- Outcome of one `expect_*` call: either a Python-level `IndexError` crash,
or the returned `(node-or-None, index)` pair; both carry the error log as it
stands at that point. -/
inductive MatchResult where
  | crashed (errors : Errors)
  | result (node : Option ASTNode) (index : Nat) (errors : Errors)

/-- Injects the value returned by `add_error` (the `(None, 0)` sentinel plus
the extended log) into a `MatchResult`. -/
def toResult (r : (Option ASTNode × Nat) × Errors) : MatchResult :=
  MatchResult.result r.1.1 r.1.2 r.2

/-- The guard pattern `len(tokens) > index and tokens[index].kind == k` used
throughout the parser, as an optional lookup of the kind at an index. -/
def kind_at (tokens : List Token) (index : Nat) : Option TokenKind :=
  (tokens[index]?).map Token.kind

/-- Embedding of `Parser.expect_expression` (parser.py lines 102-110).  The source reads
`tokens[index].kind` with no bounds check, so an index at or past the end of
the list raises `IndexError`: that is the `crashed` branch. -/
def expect_expression (tokens : List Token) (index : Nat) (errors : Errors) :
    MatchResult :=
  match tokens[index]? with
  | none => MatchResult.crashed errors
  | some tok =>
    if tok.kind = TokenKind.number then
      MatchResult.result (some (ASTNode.NumberNode tok)) (index + 1) errors
    else
      toResult (add_error errors "expected number" index tokens MsgType.GOT)

/-- Embedding of `Parser.expect_return` (parser.py lines 84-100). -/
def expect_return (tokens : List Token) (index : Nat) (errors : Errors) :
    MatchResult :=
  if kind_at tokens index = some TokenKind.return_kw then
    match expect_expression tokens (index + 1) errors with
    | MatchResult.crashed errors2 => MatchResult.crashed errors2
    | MatchResult.result none _ errors2 =>
        -- `if not node: return (None, 0)` — failure propagated, no new record
        MatchResult.result none 0 errors2
    | MatchResult.result (some node) index2 errors2 =>
        if kind_at tokens index2 = some TokenKind.semicolon then
          MatchResult.result (some (ASTNode.ReturnNode node)) (index2 + 1) errors2
        else
          toResult (add_error errors2 "expected semicolon" index2 tokens MsgType.AFTER)
  else
    toResult (add_error errors "expected return keyword" index tokens MsgType.GOT)

/-- Embedding of `Parser.expect_statement` (parser.py lines 80-82): delegates to
`expect_return`. -/
def expect_statement (tokens : List Token) (index : Nat) (errors : Errors) :
    MatchResult :=
  expect_return tokens index errors

/-- Outcome of the statement-repetition loop inside `expect_main`. -/
inductive LoopResult where
  | crashed (errors : Errors)
  | result (nodes : List ASTNode) (index : Nat) (errors : Errors)

/-- The `while True` loop of `Parser.expect_main` (parser.py lines 62-70):
repeatedly attempt a statement; on failure restore the pre-attempt index
(`prev_index`) and stop, keeping the attempt's error records.  The loop
terminates because a successful statement match strictly advances the index
while staying within the token list (proved inline below). -/
def statement_loop (tokens : List Token) (index : Nat) (nodes : List ASTNode)
    (errors : Errors) : LoopResult :=
  match h : expect_statement tokens index errors with
  | MatchResult.crashed errors2 => LoopResult.crashed errors2
  | MatchResult.result none _ errors2 => LoopResult.result nodes index errors2
  | MatchResult.result (some node) index2 errors2 =>
      statement_loop tokens index2 (nodes ++ [node]) errors2
termination_by tokens.length - index
decreasing_by
  have key : index < index2 ∧ index2 ≤ tokens.length := by
    unfold expect_statement expect_return at h
    split at h
    · split at h
      · simp at h
      · simp at h
      · rename_i n idx errs hexp
        have hidx : idx = index + 1 + 1 := by
          unfold expect_expression at hexp
          split at hexp
          · simp at hexp
          · split at hexp
            · injection hexp with h1 h2 h3
              omega
            · simp [toResult, add_error] at hexp
        split at h
        · rename_i hsemi
          have hlt : idx < tokens.length := by
            by_contra hge
            rw [kind_at, List.getElem?_eq_none (by omega)] at hsemi
            simp at hsemi
          injection h with h1 h2 h3
          omega
        · simp [toResult, add_error] at h
    · simp [toResult, add_error] at h
  omega

/-- The token kinds `"int" "main" "(" ")" "\x7b"` expected at the start of
`expect_main` (parser.py lines 52-54). -/
def kinds_before : List TokenKind :=
  [TokenKind.int_kw, TokenKind.main, TokenKind.open_paren,
   TokenKind.close_paren, TokenKind.open_brack]

/-- Embedding of `Parser.expect_main` (parser.py lines 49-78).  The local variable
`match_start = self.match_tokens(tokens[index:], kinds_before)` of the source
is inlined at its two use sites (`if match_start:` and
`index += match_start`); `match_tokens` is pure, so this is the same
value. -/
def expect_main (tokens : List Token) (index : Nat) (errors : Errors) :
    MatchResult :=
  if match_tokens (tokens.drop index) kinds_before ≠ 0 then
    match statement_loop tokens
        (index + match_tokens (tokens.drop index) kinds_before) [] errors with
    | LoopResult.crashed errors2 => MatchResult.crashed errors2
    | LoopResult.result nodes index2 errors2 =>
        if kind_at tokens index2 = some TokenKind.close_brack then
          MatchResult.result (some (ASTNode.MainNode nodes)) (index2 + 1) errors2
        else
          toResult (add_error errors2 "expected closing brace" index2 tokens MsgType.GOT)
  else
    toResult (add_error errors "expected main function starting" index tokens MsgType.AT)

/-- Embedding of `sorted(self.errors, key=lambda error: error[1])` (parser.py line 42):
Python's `sorted` is a stable ascending sort by the given key, here the
failure index. -/
def sorted_errors (errors : Errors) : Errors :=
  errors.mergeSort (fun a b => decide (a.2 ≤ b.2))

/-- Outcome of `Parser.parse`: a returned AST root, a raised
`CompilerError`, or a crash from a non-`CompilerError` Python exception; each
carries the final state of the error log. -/
inductive ParseOut where
  | crashed (errors : Errors)
  | raised (err : CompilerError) (errors : Errors)
  | returned (node : ASTNode) (errors : Errors)

/-- Embedding of `Parser.parse` (parser.py lines 31-47).  On failure it raises
`sorted(self.errors, key=...)[-1][0]`; `[-1]` on an empty log would itself be
an `IndexError`, hence the `crashed` branch there. -/
def parse (tokens : List Token) (errors : Errors) : ParseOut :=
  match expect_main tokens 0 errors with
  | MatchResult.crashed errors2 => ParseOut.crashed errors2
  | MatchResult.result none _ errors2 =>
      match (sorted_errors errors2).getLast? with
      | none => ParseOut.crashed errors2
      | some e => ParseOut.raised e.1 errors2
  | MatchResult.result (some node) index errors2 =>
      if tokens.drop index ≠ [] then
        ParseOut.raised (make_error "unexpected token" index tokens MsgType.AT) errors2
      else
        ParseOut.returned node errors2

/-- The error log carried by a matcher outcome (the state of `self.errors`
when the call returns or the exception propagates). -/
def MatchResult.errlog : MatchResult → Errors
  | MatchResult.crashed errors => errors
  | MatchResult.result _ _ errors => errors

/-- The error log carried by a loop outcome. -/
def LoopResult.errlog : LoopResult → Errors
  | LoopResult.crashed errors => errors
  | LoopResult.result _ _ errors => errors

/-- The error log carried by a `parse` outcome. -/
def ParseOut.errlog : ParseOut → Errors
  | ParseOut.crashed errors => errors
  | ParseOut.raised _ errors => errors
  | ParseOut.returned _ errors => errors

/-- The three tokens `return NUMBER ;` of one grammar statement. -/
def stmt_chunk (s : Token × Token × Token) : List Token :=
  [s.1, s.2.1, s.2.2]

/-- The token sequence generated by `statement*` in the grammar of §6: a
concatenation of `return NUMBER ;` chunks. -/
def body_tokens (stmts : List (Token × Token × Token)) : List Token :=
  (stmts.map stmt_chunk).flatten

/-! ### Concrete tokens used in the scenario theorems and witnesses -/

/-- A token of the five-token `int main ( ) \x7b` prefix, or of a statement. -/
def tkInt : Token := ⟨TokenKind.int_kw, "int", "main.c", 1⟩

def tkMain : Token := ⟨TokenKind.main, "main", "main.c", 1⟩

def tkOpenParen : Token := ⟨TokenKind.open_paren, "(", "main.c", 1⟩

def tkCloseParen : Token := ⟨TokenKind.close_paren, ")", "main.c", 1⟩

def tkOpenBrack : Token := ⟨TokenKind.open_brack, "\x7b", "main.c", 1⟩

def tkCloseBrack : Token := ⟨TokenKind.close_brack, "\x7d", "main.c", 2⟩

def tkReturn : Token := ⟨TokenKind.return_kw, "return", "main.c", 2⟩

def tkFour : Token := ⟨TokenKind.number, "4", "main.c", 2⟩

def tkSemi : Token := ⟨TokenKind.semicolon, ";", "main.c", 2⟩

def tkExtra : Token := ⟨TokenKind.identifier, "extra", "main.c", 3⟩

/-- Tokens of `int main ( ) \x7b return 4 ; \x7d`. -/
def toksGood : List Token :=
  [tkInt, tkMain, tkOpenParen, tkCloseParen, tkOpenBrack,
   tkReturn, tkFour, tkSemi, tkCloseBrack]

/-- Tokens of `int main ( ) \x7b return ; \x7d`. -/
def toksNoNumber : List Token :=
  [tkInt, tkMain, tkOpenParen, tkCloseParen, tkOpenBrack,
   tkReturn, tkSemi, tkCloseBrack]

/-- Tokens of `int main ( ) \x7b return 4 ; \x7d extra`. -/
def toksTrailing : List Token := toksGood ++ [tkExtra]

/-- Tokens of the abruptly-ending `int main ( ) \x7b return`. -/
def toksTruncated : List Token :=
  [tkInt, tkMain, tkOpenParen, tkCloseParen, tkOpenBrack, tkReturn]

/-! ### General lemmas about the embedded parser -/

/-- A `kind_at` hit means the index is in range. -/
theorem kind_at_lt {tokens : List Token} {index : Nat} {k : TokenKind}
    (h : kind_at tokens index = some k) : index < tokens.length := by
  by_contra hge
  rw [kind_at, List.getElem?_eq_none (by omega)] at h
  simp at h

/-- A successful `expect_expression` advances the index by exactly one. -/
theorem expect_expression_index {tokens : List Token} {index : Nat}
    {errors : Errors} {node : ASTNode} {index2 : Nat} {errors2 : Errors}
    (h : expect_expression tokens index errors
          = MatchResult.result (some node) index2 errors2) :
    index2 = index + 1 ∧ index < tokens.length := by
  unfold expect_expression at h
  split at h
  · simp at h
  · rename_i tok hget
    have hlt : index < tokens.length := by
      by_contra hge
      rw [List.getElem?_eq_none (by omega)] at hget
      simp at hget
    split at h
    · injection h with h1 h2 h3
      omega
    · simp [toResult, add_error] at h

/-- A successful `expect_return` consumes at least one token and leaves the
index within the token list (it ends right after a semicolon token that was
checked to be in range). -/
theorem expect_return_index_lt {tokens : List Token} {index : Nat}
    {errors : Errors} {node : ASTNode} {index2 : Nat} {errors2 : Errors}
    (h : expect_return tokens index errors
          = MatchResult.result (some node) index2 errors2) :
    index < index2 ∧ index2 ≤ tokens.length := by
  unfold expect_return at h
  split at h
  · split at h
    · simp at h
    · simp at h
    · rename_i n idx errs hexp
      have hidx := expect_expression_index hexp
      split at h
      · rename_i hsemi
        have hlt : idx < tokens.length := kind_at_lt hsemi
        injection h with h1 h2 h3
        omega
      · simp [toResult, add_error] at h
  · simp [toResult, add_error] at h

/-- Unfolding of the statement loop when the statement attempt fails: the
index is restored to its pre-attempt value and the loop stops. -/
theorem statement_loop_fail (nodes : List ASTNode) {tokens : List Token}
    {index i2 : Nat} {errors errors2 : Errors}
    (h : expect_statement tokens index errors = MatchResult.result none i2 errors2) :
    statement_loop tokens index nodes errors = LoopResult.result nodes index errors2 := by
  rw [statement_loop, h]

/-- Unfolding of the statement loop when the statement attempt succeeds: the
node is appended and the loop continues at the new index. -/
theorem statement_loop_succ (nodes : List ASTNode) {tokens : List Token}
    {index index2 : Nat} {errors errors2 : Errors} {node : ASTNode}
    (h : expect_statement tokens index errors = MatchResult.result (some node) index2 errors2) :
    statement_loop tokens index nodes errors
      = statement_loop tokens index2 (nodes ++ [node]) errors2 := by
  rw [statement_loop, h]

/-- Unfolding of the statement loop when the statement attempt crashes. -/
theorem statement_loop_crash (nodes : List ASTNode) {tokens : List Token}
    {index : Nat} {errors errors2 : Errors}
    (h : expect_statement tokens index errors = MatchResult.crashed errors2) :
    statement_loop tokens index nodes errors = LoopResult.crashed errors2 := by
  rw [statement_loop, h]

/-- Evaluation of `expect_main` from a computed loop result. -/
theorem expect_main_of_loop_result (tokens : List Token) (index : Nat) (errors : Errors)
    {ms : Nat} {nodes : List ASTNode} {index2 : Nat} {errors2 : Errors}
    (hms : match_tokens (tokens.drop index) kinds_before = ms) (hne : ms ≠ 0)
    (hloop : statement_loop tokens (index + ms) [] errors
              = LoopResult.result nodes index2 errors2) :
    expect_main tokens index errors
      = if kind_at tokens index2 = some TokenKind.close_brack then
          MatchResult.result (some (ASTNode.MainNode nodes)) (index2 + 1) errors2
        else toResult (add_error errors2 "expected closing brace" index2 tokens MsgType.GOT) := by
  subst hms
  unfold expect_main
  rw [if_pos hne, hloop]

/-- Evaluation of `expect_main` when the loop crashes. -/
theorem expect_main_of_loop_crash (tokens : List Token) (index : Nat) (errors : Errors)
    {ms : Nat} {errors2 : Errors}
    (hms : match_tokens (tokens.drop index) kinds_before = ms) (hne : ms ≠ 0)
    (hloop : statement_loop tokens (index + ms) [] errors = LoopResult.crashed errors2) :
    expect_main tokens index errors = MatchResult.crashed errors2 := by
  subst hms
  unfold expect_main
  rw [if_pos hne, hloop]

/-- Evaluation of `parse` when `expect_main` fails: the raised error comes
from the sorted error log. -/
theorem parse_of_main_none {tokens : List Token} {errors : Errors} {i : Nat}
    {errors2 : Errors}
    (h : expect_main tokens 0 errors = MatchResult.result none i errors2) :
    parse tokens errors
      = (match (sorted_errors errors2).getLast? with
         | none => ParseOut.crashed errors2
         | some e => ParseOut.raised e.1 errors2) := by
  unfold parse
  rw [h]

/-- Evaluation of `parse` when `expect_main` succeeds: leftover tokens raise
the "unexpected token" error. -/
theorem parse_of_main_some {tokens : List Token} {errors : Errors} {node : ASTNode}
    {index : Nat} {errors2 : Errors}
    (h : expect_main tokens 0 errors = MatchResult.result (some node) index errors2) :
    parse tokens errors
      = (if tokens.drop index ≠ [] then
           ParseOut.raised (make_error "unexpected token" index tokens MsgType.AT) errors2
         else ParseOut.returned node errors2) := by
  unfold parse
  rw [h]

/-- Evaluation of `parse` when `expect_main` crashes. -/
theorem parse_of_main_crash {tokens : List Token} {errors : Errors} {errors2 : Errors}
    (h : expect_main tokens 0 errors = MatchResult.crashed errors2) :
    parse tokens errors = ParseOut.crashed errors2 := by
  unfold parse
  rw [h]

/-- Computation of `mergeSort` on a two-element list. -/
theorem mergeSort_pair {α : Type} (le : α → α → Bool) (a b : α) :
    List.mergeSort [a, b] le = if le a b then [a, b] else [b, a] := by
  rw [List.mergeSort]
  simp [List.splitInTwo, List.merge]

/-- Evaluation of `make_error` with a natural index strictly inside the token list, AT
style: the error text and location come from the token at that index (an
index of `0` also lands here, since the clamp is the identity and AT is not
downgraded). -/
theorem make_error_at_nat {tokens : List Token} {i : Nat} (hi : i < tokens.length)
    (msg : String) :
    make_error msg i tokens MsgType.AT
      = CompilerError.mk (msg ++ " at \x27" ++ (tokens.getD i default).content ++ "\x27")
          (some (tokens.getD i default).file_name)
          (some (tokens.getD i default).line_num) := by
  unfold make_error
  rw [if_neg (by omega)]
  by_cases h0 : i = 0
  · subst h0
    rw [if_neg (by omega), if_pos (by omega)]
    simp
  · rw [if_neg (by omega), if_neg (by omega)]
    simp

/-! ### Claim theorems -/

/-- C5: parsing the tokens of `int main ( ) \x7b return ; \x7d` surfaces
exactly the error "expected number, got \x27;\x27" (recorded at index 6, the
semicolon); the return matcher propagates the expression failure without
recording a second error — the attempt leaves a single record — and
furthest-error selection prefers it to the later-recorded "expected closing
brace" error at the smaller index 5. -/
theorem return_semicolon_raises_expected_number :
    expect_return toksNoNumber 5 []
      = MatchResult.result none 0
          [(CompilerError.mk "expected number, got \x27;\x27" (some "main.c") (some 2), 6)]
  ∧ parse toksNoNumber []
      = ParseOut.raised
          (CompilerError.mk "expected number, got \x27;\x27" (some "main.c") (some 2))
          [(CompilerError.mk "expected number, got \x27;\x27" (some "main.c") (some 2), 6),
           (CompilerError.mk "expected closing brace, got \x27return\x27" (some "main.c") (some 2), 5)] := by
  constructor
  · rfl
  · have h1 : expect_statement toksNoNumber 5 []
        = MatchResult.result none 0
            [(CompilerError.mk "expected number, got \x27;\x27" (some "main.c") (some 2), 6)] := rfl
    have h2 := statement_loop_fail [] h1
    have h3 := expect_main_of_loop_result toksNoNumber 0 [] rfl (by decide) h2
    rw [if_neg (by decide)] at h3
    have h3b : expect_main toksNoNumber 0 []
        = MatchResult.result none 0
            [(CompilerError.mk "expected number, got \x27;\x27" (some "main.c") (some 2), 6),
             (CompilerError.mk "expected closing brace, got \x27return\x27" (some "main.c") (some 2), 5)] := h3
    have h4 := parse_of_main_none h3b
    rw [h4, sorted_errors, mergeSort_pair]
    rfl

/-- C2 (failing case): the tokens of `int main ( ) \x7b return` make `parse`
crash with a Python `IndexError` (the expression matcher subscripts one past
the end), leaving the error log empty — `parse` neither returns a root nor
raises a `CompilerError` here, contradicting the claimed dichotomy. -/
theorem truncated_input_crashes_parse :
    parse toksTruncated [] = ParseOut.crashed [] := by
  have h1 : expect_statement toksTruncated 5 [] = MatchResult.crashed [] := rfl
  have h2 := statement_loop_crash [] h1
  have h3 := expect_main_of_loop_crash toksTruncated 0 [] rfl (by decide) h2
  exact parse_of_main_crash h3

/-- C4 (failing case): invoked at or past the end of the token sequence, the
expression matcher does NOT record an "expected number" error — it performs
an out-of-bounds access (`tokens[index].kind` with no bounds check) and the
resulting `IndexError` propagates, leaving the log untouched. -/
theorem expect_expression_oob_crash (tokens : List Token) (index : Nat)
    (errors : Errors) (h : tokens.length ≤ index) :
    expect_expression tokens index errors = MatchResult.crashed errors := by
  unfold expect_expression
  rw [List.getElem?_eq_none h]

/-- Witness for C4's theorem: the crash at index 6 of the six-token
`int main ( ) \x7b return` sequence. -/
theorem expect_expression_oob_crash_witness :
    toksTruncated.length ≤ 6
  ∧ expect_expression toksTruncated 6 [] = MatchResult.crashed [] :=
  ⟨by decide, expect_expression_oob_crash toksTruncated 6 [] (by decide)⟩

/-- C6: when the program-entry matcher succeeds but leaves tokens unconsumed,
`parse` raises a fresh "unexpected token" error in AT style carrying the
first leftover token's text, file name and line number; concretely, the
tokens of `int main ( ) \x7b return 4 ; \x7d extra` first build the
ProgramRoot for the brace-closed body (the successful `expect_main` result)
and then raise "unexpected token at \x27extra\x27". -/
theorem unexpected_trailing_token :
    (∀ (tokens : List Token) (errors : Errors) (node : ASTNode) (index : Nat)
        (errors2 : Errors),
        expect_main tokens 0 errors = MatchResult.result (some node) index errors2 →
        index < tokens.length →
        parse tokens errors
          = ParseOut.raised
              (CompilerError.mk
                ("unexpected token at \x27" ++ (tokens.getD index default).content ++ "\x27")
                (some (tokens.getD index default).file_name)
                (some (tokens.getD index default).line_num)) errors2)
  ∧ expect_main toksTrailing 0 []
      = MatchResult.result
          (some (ASTNode.MainNode [ASTNode.ReturnNode (ASTNode.NumberNode tkFour)])) 9
          [(CompilerError.mk "expected return keyword, got \x27\x7d\x27" (some "main.c") (some 2), 8)]
  ∧ parse toksTrailing []
      = ParseOut.raised
          (CompilerError.mk "unexpected token at \x27extra\x27" (some "main.c") (some 3))
          [(CompilerError.mk "expected return keyword, got \x27\x7d\x27" (some "main.c") (some 2), 8)] := by
  have h1 : expect_statement toksTrailing 5 []
      = MatchResult.result (some (ASTNode.ReturnNode (ASTNode.NumberNode tkFour))) 8 [] := rfl
  have h2 := statement_loop_succ [] h1
  have h1b : expect_statement toksTrailing 8 []
      = MatchResult.result none 0
          [(CompilerError.mk "expected return keyword, got \x27\x7d\x27" (some "main.c") (some 2), 8)] := rfl
  have h2b := statement_loop_fail [ASTNode.ReturnNode (ASTNode.NumberNode tkFour)] h1b
  have h3 := expect_main_of_loop_result toksTrailing 0 [] rfl (by decide) (h2.trans h2b)
  rw [if_pos (by decide)] at h3
  refine ⟨?_, h3, ?_⟩
  · intro tokens errors node index errors2 hmain hlt
    rw [parse_of_main_some hmain,
        if_pos (by rw [Ne, List.drop_eq_nil_iff]; omega),
        make_error_at_nat hlt]
    rfl
  · have h4 := parse_of_main_some h3
    rw [h4]
    rfl

/-- Witness for the universally-quantified part of C6's theorem: instantiated
on the concrete trailing-token scenario, with the leftover index 9 in range
of the ten-token list. -/
theorem unexpected_trailing_token_witness :
    parse toksTrailing []
      = ParseOut.raised
          (CompilerError.mk
            ("unexpected token at \x27" ++ (toksTrailing.getD 9 default).content ++ "\x27")
            (some (toksTrailing.getD 9 default).file_name)
            (some (toksTrailing.getD 9 default).line_num))
          [(CompilerError.mk "expected return keyword, got \x27\x7d\x27" (some "main.c") (some 2), 8)] :=
  unexpected_trailing_token.1 toksTrailing []
    (ASTNode.MainNode [ASTNode.ReturnNode (ASTNode.NumberNode tkFour)]) 9
    [(CompilerError.mk "expected return keyword, got \x27\x7d\x27" (some "main.c") (some 2), 8)]
    unexpected_trailing_token.2.1 (by decide)

/-- The value delivered by `getLast?` is a member of the list. -/
theorem mem_of_getLast {α : Type} {l : List α} {e : α}
    (h : l.getLast? = some e) : e ∈ l := by
  rw [List.getLast?_eq_getElem?] at h
  exact List.getElem?_mem h

/-- In a `Pairwise R` list, every element is the last one or relates to it. -/
theorem pairwise_getLast {α : Type} {R : α → α → Prop} :
    ∀ {l : List α} {e : α}, l.Pairwise R → l.getLast? = some e →
      ∀ x ∈ l, x = e ∨ R x e
  | [], e, _, hl => by simp at hl
  | [a], e, _, hl => by
      simp at hl
      subst hl
      intro x hx
      simp at hx
      exact Or.inl hx
  | a :: b :: t, e, hp, hl => by
      rw [List.getLast?_cons_cons] at hl
      intro x hx
      rcases List.mem_cons.mp hx with hxa | hxbt
      · subst hxa
        exact Or.inr (List.rel_of_pairwise_cons hp (mem_of_getLast hl))
      · exact pairwise_getLast (List.pairwise_cons.mp hp).2 hl x hxbt

/-- C1: when the program-entry matcher fails, `parse` raises the head of the
last record of the stably index-sorted log; that record carries the maximal
failure index of the log; with two records at indices `i < j` the record at
`j` is selected whichever was recorded first; and with two records at the
same index the one recorded later is selected. -/
theorem furthest_error_selection :
    (∀ (tokens : List Token) (errors errors2 : Errors) (i : Nat)
        (e : CompilerError × Nat),
        expect_main tokens 0 errors = MatchResult.result none i errors2 →
        (sorted_errors errors2).getLast? = some e →
        parse tokens errors = ParseOut.raised e.1 errors2)
  ∧ (∀ (errs : Errors) (e : CompilerError × Nat),
        (sorted_errors errs).getLast? = some e →
        e ∈ errs ∧ ∀ x ∈ errs, x.2 ≤ e.2)
  ∧ (∀ (e1 e2 : CompilerError) (i j : Nat), i < j →
        (sorted_errors [(e1, i), (e2, j)]).getLast? = some (e2, j)
      ∧ (sorted_errors [(e2, j), (e1, i)]).getLast? = some (e2, j))
  ∧ (∀ (e1 e2 : CompilerError) (i : Nat),
        (sorted_errors [(e1, i), (e2, i)]).getLast? = some (e2, i)) := by
  refine ⟨?_, ?_, ?_, ?_⟩
  · intro tokens errors errors2 i e hmain hlast
    rw [parse_of_main_none hmain, hlast]
  · intro errs e hlast
    have hperm : (sorted_errors errs).Perm errs :=
      List.mergeSort_perm errs (fun a b => decide (a.2 ≤ b.2))
    have hsorted : (sorted_errors errs).Pairwise
        (fun a b : CompilerError × Nat => decide (a.2 ≤ b.2) = true) :=
      List.sorted_mergeSort (by intro a b c hab hbc; simp at hab hbc ⊢; omega)
        (by intro a b; simp; omega) errs
    constructor
    · exact hperm.mem_iff.mp (mem_of_getLast hlast)
    · intro x hx
      rcases pairwise_getLast hsorted hlast x (hperm.mem_iff.mpr hx) with h | h
      · exact h ▸ Nat.le_refl _
      · exact of_decide_eq_true h
  · intro e1 e2 i j hij
    constructor
    · rw [sorted_errors, mergeSort_pair, if_pos (by simp; omega)]
      rfl
    · rw [sorted_errors, mergeSort_pair, if_neg (by simp; omega)]
      rfl
  · intro e1 e2 i
    rw [sorted_errors, mergeSort_pair, if_pos (by simp)]
    rfl

/-- Witness for C1's theorem: two records at indices 0 < 1; whichever is
recorded first, the record at index 1 is selected. -/
theorem furthest_error_selection_witness :
    (sorted_errors [(CompilerError.mk "a" none none, 0),
                    (CompilerError.mk "b" none none, 1)]).getLast?
      = some (CompilerError.mk "b" none none, 1)
  ∧ (sorted_errors [(CompilerError.mk "b" none none, 1),
                    (CompilerError.mk "a" none none, 0)]).getLast?
      = some (CompilerError.mk "b" none none, 1) :=
  furthest_error_selection.2.2.1 (CompilerError.mk "a" none none)
    (CompilerError.mk "b" none none) 0 1 (by decide)

/-- The statement loop never moves the index backwards: on normal exit the
final index is at least the starting one. -/
theorem statement_loop_index_mono : ∀ (tokens : List Token) (index : Nat)
    (nodes : List ASTNode) (errors : Errors) {nodes2 : List ASTNode}
    {index2 : Nat} {errors2 : Errors},
    statement_loop tokens index nodes errors = LoopResult.result nodes2 index2 errors2 →
    index ≤ index2 := by
  intro tokens index nodes errors
  induction index, nodes, errors using statement_loop.induct tokens with
  | case1 i n e e2 hst =>
      intro nodes2 index2 errors2 h
      rw [statement_loop_crash n hst] at h
      simp at h
  | case2 i n e i0 e2 hst =>
      intro nodes2 index2 errors2 h
      rw [statement_loop_fail n hst] at h
      injection h with h1 h2 h3
      omega
  | case3 i n e node i2 e2 hst ih =>
      intro nodes2 index2 errors2 h
      rw [statement_loop_succ n hst] at h
      have h1 := ih h
      have h2 := expect_return_index_lt hst
      omega

/-- C9: parsing always terminates: a matcher either fails or strictly
advances the index — a successful statement match advances it while staying
within the token list (which makes the statement-repetition loop
well-founded, and is the measure `statement_loop` recurses on), a successful
expression match advances it by one, and a successful program-entry match
strictly advances it. -/
theorem parser_progress :
    (∀ (tokens : List Token) (index : Nat) (errors : Errors) (node : ASTNode)
        (index2 : Nat) (errors2 : Errors),
        expect_statement tokens index errors = MatchResult.result (some node) index2 errors2 →
        index < index2 ∧ index2 ≤ tokens.length)
  ∧ (∀ (tokens : List Token) (index : Nat) (errors : Errors) (node : ASTNode)
        (index2 : Nat) (errors2 : Errors),
        expect_expression tokens index errors = MatchResult.result (some node) index2 errors2 →
        index2 = index + 1)
  ∧ (∀ (tokens : List Token) (index : Nat) (errors : Errors) (node : ASTNode)
        (index2 : Nat) (errors2 : Errors),
        expect_main tokens index errors = MatchResult.result (some node) index2 errors2 →
        index < index2) := by
  refine ⟨?_, ?_, ?_⟩
  · intro tokens index errors node index2 errors2 h
    exact expect_return_index_lt h
  · intro tokens index errors node index2 errors2 h
    exact (expect_expression_index h).1
  · intro tokens index errors node index2 errors2 h
    unfold expect_main at h
    split at h
    · rename_i hne
      split at h
      · simp at h
      · rename_i ns i2 errs hloop
        have hmono := statement_loop_index_mono _ _ _ _ hloop
        split at h
        · injection h with h1 h2 h3
          omega
        · simp [toResult, add_error] at h
    · simp [toResult, add_error] at h

/-- Witness for C9's theorem: the statement at index 5 of
`int main ( ) \x7b return 4 ; \x7d` succeeds and moves the index from 5 to 8,
within the nine-token list. -/
theorem parser_progress_witness : (5 : Nat) < 8 ∧ 8 ≤ toksGood.length :=
  parser_progress.1 toksGood 5 [] (ASTNode.ReturnNode (ASTNode.NumberNode tkFour))
    8 [] rfl

/-- The expression matcher only ever appends to the error log. -/
theorem errlog_expression (tokens : List Token) (index : Nat) (errors : Errors) :
    ∃ d, (expect_expression tokens index errors).errlog = errors ++ d := by
  unfold expect_expression
  split
  · exact ⟨[], by simp [MatchResult.errlog]⟩
  · split
    · exact ⟨[], by simp [MatchResult.errlog]⟩
    · exact ⟨[(make_error "expected number" index tokens MsgType.GOT, index)],
        by simp [toResult, add_error, MatchResult.errlog]⟩

/-- The return matcher only ever appends to the error log. -/
theorem errlog_return (tokens : List Token) (index : Nat) (errors : Errors) :
    ∃ d, (expect_return tokens index errors).errlog = errors ++ d := by
  unfold expect_return
  split
  · split
    · rename_i errs2 hexp
      obtain ⟨d1, hd1⟩ := errlog_expression tokens (index + 1) errors
      rw [hexp] at hd1
      exact ⟨d1, by simpa [MatchResult.errlog] using hd1⟩
    · rename_i i0 errs2 hexp
      obtain ⟨d1, hd1⟩ := errlog_expression tokens (index + 1) errors
      rw [hexp] at hd1
      exact ⟨d1, by simpa [MatchResult.errlog] using hd1⟩
    · rename_i node i2 errs2 hexp
      obtain ⟨d1, hd1⟩ := errlog_expression tokens (index + 1) errors
      rw [hexp] at hd1
      simp only [MatchResult.errlog] at hd1
      split
      · exact ⟨d1, by simpa [MatchResult.errlog] using hd1⟩
      · exact ⟨d1 ++ [(make_error "expected semicolon" i2 tokens MsgType.AFTER, i2)],
          by simp [toResult, add_error, MatchResult.errlog, hd1]⟩
  · exact ⟨[(make_error "expected return keyword" index tokens MsgType.GOT, index)],
      by simp [toResult, add_error, MatchResult.errlog]⟩

/-- The statement loop only ever appends to the error log. -/
theorem errlog_loop : ∀ (tokens : List Token) (index : Nat) (nodes : List ASTNode)
    (errors : Errors),
    ∃ d, (statement_loop tokens index nodes errors).errlog = errors ++ d := by
  intro tokens index nodes errors
  induction index, nodes, errors using statement_loop.induct tokens with
  | case1 i n e e2 hst =>
      rw [statement_loop_crash n hst]
      obtain ⟨d, hd⟩ := errlog_return tokens i e
      rw [show expect_return tokens i e = expect_statement tokens i e from rfl, hst] at hd
      exact ⟨d, by simpa [MatchResult.errlog, LoopResult.errlog] using hd⟩
  | case2 i n e i0 e2 hst =>
      rw [statement_loop_fail n hst]
      obtain ⟨d, hd⟩ := errlog_return tokens i e
      rw [show expect_return tokens i e = expect_statement tokens i e from rfl, hst] at hd
      exact ⟨d, by simpa [MatchResult.errlog, LoopResult.errlog] using hd⟩
  | case3 i n e node i2 e2 hst ih =>
      rw [statement_loop_succ n hst]
      obtain ⟨d1, hd1⟩ := errlog_return tokens i e
      rw [show expect_return tokens i e = expect_statement tokens i e from rfl, hst] at hd1
      simp only [MatchResult.errlog] at hd1
      obtain ⟨d2, hd2⟩ := ih
      exact ⟨d1 ++ d2, by rw [hd2, hd1, List.append_assoc]⟩

/-- The program-entry matcher only ever appends to the error log. -/
theorem errlog_main (tokens : List Token) (index : Nat) (errors : Errors) :
    ∃ d, (expect_main tokens index errors).errlog = errors ++ d := by
  unfold expect_main
  split
  · split
    · rename_i errs2 hloop
      obtain ⟨d, hd⟩ := errlog_loop tokens
        (index + match_tokens (tokens.drop index) kinds_before) [] errors
      rw [hloop] at hd
      exact ⟨d, by simpa [LoopResult.errlog, MatchResult.errlog] using hd⟩
    · rename_i ns i2 errs2 hloop
      obtain ⟨d, hd⟩ := errlog_loop tokens
        (index + match_tokens (tokens.drop index) kinds_before) [] errors
      rw [hloop] at hd
      simp only [LoopResult.errlog] at hd
      split
      · exact ⟨d, by simpa [MatchResult.errlog] using hd⟩
      · exact ⟨d ++ [(make_error "expected closing brace" i2 tokens MsgType.GOT, i2)],
          by simp [toResult, add_error, MatchResult.errlog, hd]⟩
  · exact ⟨[(make_error "expected main function starting" index tokens MsgType.AT, index)],
      by simp [toResult, add_error, MatchResult.errlog]⟩

/-- Parsing only ever appends to the error log. -/
theorem errlog_parse (tokens : List Token) (errors : Errors) :
    ∃ d, (parse tokens errors).errlog = errors ++ d := by
  unfold parse
  split
  · rename_i errs2 hmain
    obtain ⟨d, hd⟩ := errlog_main tokens 0 errors
    rw [hmain] at hd
    exact ⟨d, by simpa [MatchResult.errlog, ParseOut.errlog] using hd⟩
  · rename_i i errs2 hmain
    obtain ⟨d, hd⟩ := errlog_main tokens 0 errors
    rw [hmain] at hd
    simp only [MatchResult.errlog] at hd
    split
    · exact ⟨d, by simpa [ParseOut.errlog] using hd⟩
    · exact ⟨d, by simpa [ParseOut.errlog] using hd⟩
  · rename_i node i errs2 hmain
    obtain ⟨d, hd⟩ := errlog_main tokens 0 errors
    rw [hmain] at hd
    simp only [MatchResult.errlog] at hd
    split
    · exact ⟨d, by simpa [ParseOut.errlog] using hd⟩
    · exact ⟨d, by simpa [ParseOut.errlog] using hd⟩

/-- C10: the error log is monotone across the whole interface — every
matcher, the statement loop and `parse` itself only append records, in every
outcome (return, raise or crash) — and a `parse` call on a parser holding
records from earlier invocations selects over those stale records too: with
a leftover record at index 5, parsing an empty token list raises the stale
error rather than the fresh "expected main function starting" record at
index 0. -/
theorem error_log_monotone :
    (∀ (tokens : List Token) (index : Nat) (errors : Errors),
        ∃ d, (expect_expression tokens index errors).errlog = errors ++ d)
  ∧ (∀ (tokens : List Token) (index : Nat) (errors : Errors),
        ∃ d, (expect_return tokens index errors).errlog = errors ++ d)
  ∧ (∀ (tokens : List Token) (index : Nat) (errors : Errors),
        ∃ d, (expect_statement tokens index errors).errlog = errors ++ d)
  ∧ (∀ (tokens : List Token) (index : Nat) (nodes : List ASTNode) (errors : Errors),
        ∃ d, (statement_loop tokens index nodes errors).errlog = errors ++ d)
  ∧ (∀ (tokens : List Token) (index : Nat) (errors : Errors),
        ∃ d, (expect_main tokens index errors).errlog = errors ++ d)
  ∧ (∀ (tokens : List Token) (errors : Errors),
        ∃ d, (parse tokens errors).errlog = errors ++ d)
  ∧ (∀ e : CompilerError,
        parse [] [(e, 5)]
          = ParseOut.raised e
              [(e, 5),
               (CompilerError.mk "expected main function starting at beginning of source"
                 none none, 0)]) := by
  refine ⟨errlog_expression, errlog_return, errlog_return, errlog_loop, errlog_main,
    errlog_parse, ?_⟩
  intro e
  have hmain : expect_main [] 0 [(e, 5)]
      = MatchResult.result none 0
          [(e, 5),
           (CompilerError.mk "expected main function starting at beginning of source"
             none none, 0)] := rfl
  rw [parse_of_main_none hmain, sorted_errors, mergeSort_pair, if_neg (by simp)]
  rfl

/-- The `all`-over-`zip` check of `match_tokens` agrees position-wise kind
equality with the `take`/`map` phrasing. -/
theorem zip_all_kinds : ∀ (kinds : List TokenKind) (tokens : List Token),
    kinds.length ≤ tokens.length →
    (((kinds.zip tokens).all fun p => p.1 == p.2.kind) = true
      ↔ (tokens.take kinds.length).map Token.kind = kinds)
  | [], ts, _ => by simp
  | k :: ks, [], h => by simp at h
  | k :: ks, t :: ts, h => by
      simp only [List.zip_cons_cons, List.all_cons, Bool.and_eq_true, beq_iff_eq,
        List.length_cons, List.take_succ_cons, List.map_cons, List.cons.injEq]
      rw [zip_all_kinds ks ts (by simpa using h)]
      constructor
      · rintro ⟨h1, h2⟩
        exact ⟨h1.symm, h2⟩
      · rintro ⟨h1, h2⟩
        exact ⟨h1.symm, h2⟩

/-- C8 (amended): `match_tokens` returns either `0` or the full expected
count, never a partial count; and the returned count is non-zero (truthy,
usable as an advance amount) exactly when the expected-kinds list is
NONEMPTY, the slice has at least as many tokens as expected kinds, and the
first `len(expected)` tokens agree with the expected kinds position-wise.
(The nonemptiness condition is forced: for an empty expected list the match
condition holds trivially yet the returned count `0` is falsy.) -/
theorem match_tokens_spec (tokens : List Token) (kinds_expected : List TokenKind) :
    (match_tokens tokens kinds_expected = 0
      ∨ match_tokens tokens kinds_expected = kinds_expected.length)
  ∧ (match_tokens tokens kinds_expected ≠ 0 ↔
      kinds_expected ≠ []
      ∧ kinds_expected.length ≤ tokens.length
      ∧ (tokens.take kinds_expected.length).map Token.kind = kinds_expected) := by
  unfold match_tokens
  by_cases hlen : tokens.length < kinds_expected.length
  · rw [if_pos hlen]
    refine ⟨Or.inl rfl, ?_⟩
    simp only [ne_eq, not_true_eq_false, false_iff, not_and]
    intro hne hle
    omega
  · rw [if_neg hlen]
    by_cases hall : ((kinds_expected.zip tokens).all fun p => p.1 == p.2.kind) = true
    · rw [if_pos hall]
      have hmap := (zip_all_kinds kinds_expected tokens (by omega)).mp hall
      refine ⟨Or.inr rfl, ?_, ?_⟩
      · intro hne
        refine ⟨?_, by omega, hmap⟩
        intro hemp
        subst hemp
        simp at hne
      · rintro ⟨hne, -, -⟩
        simpa [Ne, List.length_eq_zero] using hne
    · rw [if_neg hall]
      refine ⟨Or.inl rfl, ?_, ?_⟩
      · intro h0
        exact absurd rfl h0
      · rintro ⟨hne, hle, hmap⟩
        exact absurd ((zip_all_kinds kinds_expected tokens hle).mpr hmap) hall

/-- Witness for C8's theorem, instantiated on the nine-token
`int main ( ) \x7b return 4 ; \x7d` sequence and the five-kind prefix
pattern. -/
theorem match_tokens_spec_witness :
    (match_tokens toksGood kinds_before = 0
      ∨ match_tokens toksGood kinds_before = kinds_before.length)
  ∧ (match_tokens toksGood kinds_before ≠ 0 ↔
      kinds_before ≠ []
      ∧ kinds_before.length ≤ toksGood.length
      ∧ (toksGood.take kinds_before.length).map Token.kind = kinds_before) :=
  match_tokens_spec toksGood kinds_before

/-- C8 counterexample: the claim as stated fails for an empty expected-kinds
list: the slice `[tkInt]` has at least as many tokens as the zero expected
kinds and the position-wise condition holds vacuously, yet `match_tokens`
returns `0` — a falsy value, not a truthy count — so "succeeds exactly when"
is violated. -/
theorem match_tokens_empty_kinds_counterexample :
    ¬ (match_tokens [tkInt] [] ≠ 0 ↔
        ([] : List TokenKind).length ≤ [tkInt].length
        ∧ ([tkInt].take ([] : List TokenKind).length).map Token.kind
            = ([] : List TokenKind)) := by
  decide

/-- C7: `make_error` applies the boundary rules in order, for every message,
index, token list and requested style: an empty token list yields
"`<message>` at beginning of source" with no location; an index at or beyond
the end of a nonempty list forces the AFTER style referencing the last token;
an index at or below 0 is clamped to 0, a requested AFTER downgrades to GOT,
and the result references the first token; otherwise AT phrases
"at \x27token\x27", GOT phrases ", got \x27token\x27" with the token at the
index, and AFTER phrases "after \x27previous\x27" with the token before the
index — each with the referenced token's file name and line number. -/
theorem make_error_spec :
    (∀ (msg : String) (i : Int) (ty : MsgType),
        make_error msg i [] ty
          = CompilerError.mk (msg ++ " at beginning of source") none none)
  ∧ (∀ (msg : String) (i : Int) (ts : List Token) (ty : MsgType) (h : ts ≠ []),
        (ts.length : Int) ≤ i →
        make_error msg i ts ty
          = CompilerError.mk (msg ++ " after \x27" ++ (ts.getLast h).content ++ "\x27")
              (some (ts.getLast h).file_name) (some (ts.getLast h).line_num))
  ∧ (∀ (msg : String) (i : Int) (ts : List Token) (h : ts ≠ []), i ≤ 0 →
        make_error msg i ts MsgType.AT
          = CompilerError.mk (msg ++ " at \x27" ++ (ts.head h).content ++ "\x27")
              (some (ts.head h).file_name) (some (ts.head h).line_num)
      ∧ make_error msg i ts MsgType.GOT
          = CompilerError.mk (msg ++ ", got \x27" ++ (ts.head h).content ++ "\x27")
              (some (ts.head h).file_name) (some (ts.head h).line_num)
      ∧ make_error msg i ts MsgType.AFTER
          = CompilerError.mk (msg ++ ", got \x27" ++ (ts.head h).content ++ "\x27")
              (some (ts.head h).file_name) (some (ts.head h).line_num))
  ∧ (∀ (msg : String) (i : Int) (ts : List Token), 0 < i → i < (ts.length : Int) →
        ∃ tok prev, ts[i.toNat]? = some tok ∧ ts[i.toNat - 1]? = some prev
          ∧ make_error msg i ts MsgType.AT
              = CompilerError.mk (msg ++ " at \x27" ++ tok.content ++ "\x27")
                  (some tok.file_name) (some tok.line_num)
          ∧ make_error msg i ts MsgType.GOT
              = CompilerError.mk (msg ++ ", got \x27" ++ tok.content ++ "\x27")
                  (some tok.file_name) (some tok.line_num)
          ∧ make_error msg i ts MsgType.AFTER
              = CompilerError.mk (msg ++ " after \x27" ++ prev.content ++ "\x27")
                  (some prev.file_name) (some prev.line_num)) := by
  refine ⟨?_, ?_, ?_, ?_⟩
  · intro msg i ty
    simp [make_error]
  · intro msg i ts ty h hge
    have hlen : ¬ ts.length = 0 := by simpa [List.length_eq_zero] using h
    have hpos : 0 < ts.length := by omega
    unfold make_error
    rw [if_neg hlen, if_pos hge]
    have h1 : ((ts.length : Int) - 1).toNat = ts.length - 1 := by omega
    simp only [h1]
    rw [List.getD_eq_getElem ts default (show ts.length - 1 < ts.length by omega),
        List.getLast_eq_getElem]
  · intro msg i ts h hle
    have hlen : ¬ ts.length = 0 := by simpa [List.length_eq_zero] using h
    have hpos : 0 < ts.length := by omega
    have hnge : ¬ i ≥ (ts.length : Int) := by omega
    refine ⟨?_, ?_, ?_⟩ <;>
      · unfold make_error
        rw [if_neg hlen, if_neg hnge, if_pos hle]
        simp only [Int.toNat_zero]
        rw [List.getD_eq_getElem ts default hpos, List.head_eq_getElem]
        rfl
  · intro msg i ts hgt hlt
    have hlen : ¬ ts.length = 0 := by omega
    have hnge : ¬ i ≥ (ts.length : Int) := by omega
    have hnle : ¬ i ≤ 0 := by omega
    have hb : i.toNat < ts.length := by omega
    have hb2 : i.toNat - 1 < ts.length := by omega
    have h1 : (i - 1).toNat = i.toNat - 1 := by omega
    refine ⟨ts[i.toNat], ts[i.toNat - 1], List.getElem?_eq_getElem hb,
      List.getElem?_eq_getElem hb2, ?_, ?_, ?_⟩ <;>
      · unfold make_error
        rw [if_neg hlen, if_neg hnge, if_neg hnle]
        simp only [h1, List.getD_eq_getElem ts default hb,
          List.getD_eq_getElem ts default hb2]

/-- Witness for C7's theorem: the in-range case instantiated at index 1 of
the nine tokens of `int main ( ) \x7b return 4 ; \x7d`. -/
theorem make_error_spec_witness :
    ∃ tok prev, toksGood[(1 : Int).toNat]? = some tok
      ∧ toksGood[(1 : Int).toNat - 1]? = some prev
      ∧ make_error "m" 1 toksGood MsgType.AT
          = CompilerError.mk ("m" ++ " at \x27" ++ tok.content ++ "\x27")
              (some tok.file_name) (some tok.line_num)
      ∧ make_error "m" 1 toksGood MsgType.GOT
          = CompilerError.mk ("m" ++ ", got \x27" ++ tok.content ++ "\x27")
              (some tok.file_name) (some tok.line_num)
      ∧ make_error "m" 1 toksGood MsgType.AFTER
          = CompilerError.mk ("m" ++ " after \x27" ++ prev.content ++ "\x27")
              (some prev.file_name) (some prev.line_num) :=
  make_error_spec.2.2.2 "m" 1 toksGood (by decide) (by decide)

/-- Splitting a `drop` that starts with a known token. -/
theorem drop_cons_facts {α : Type} {l : List α} {n : Nat} {a : α} {t : List α}
    (h : l.drop n = a :: t) : l[n]? = some a ∧ l.drop (n + 1) = t := by
  constructor
  · have hg := List.getElem?_drop l n 0
    rw [h] at hg
    simpa using hg.symm
  · have hd : (l.drop n).drop 1 = t := by rw [h]; rfl
    rwa [List.drop_drop] at hd

/-- Unfolding of `body_tokens` on a cons: the three chunk tokens. -/
theorem body_tokens_cons (s : Token × Token × Token)
    (tl : List (Token × Token × Token)) :
    body_tokens (s :: tl) = s.1 :: s.2.1 :: s.2.2 :: body_tokens tl := rfl

/-- Each statement contributes exactly three tokens. -/
theorem body_tokens_length (stmts : List (Token × Token × Token)) :
    (body_tokens stmts).length = 3 * stmts.length := by
  induction stmts with
  | nil => rfl
  | cons s tl ih =>
      rw [body_tokens_cons]
      simp only [List.length_cons, List.length_cons, List.length_cons, ih]
      omega

/-- Running the statement loop over the token sequence of `statement*`
followed by a non-`return` token: every statement is consumed in order into a
`ReturnNode (NumberNode _)`, the index advances by three per statement, and
the final failed attempt that exits the loop appends exactly one error
record. -/
theorem statement_loop_grammar : ∀ (stmts : List (Token × Token × Token))
    (tokens : List Token) (index : Nat) (nodes : List ASTNode) (errors : Errors)
    (t : Token) (rest : List Token),
    (∀ s ∈ stmts, s.1.kind = TokenKind.return_kw ∧ s.2.1.kind = TokenKind.number
        ∧ s.2.2.kind = TokenKind.semicolon) →
    tokens.drop index = body_tokens stmts ++ t :: rest →
    t.kind ≠ TokenKind.return_kw →
    ∃ e, statement_loop tokens index nodes errors
      = LoopResult.result
          (nodes ++ stmts.map (fun s => ASTNode.ReturnNode (ASTNode.NumberNode s.2.1)))
          (index + 3 * stmts.length) (errors ++ [e])
  | [], tokens, index, nodes, errors, t, rest, hs, hdrop, ht => by
      have h1 := (drop_cons_facts (by simpa [body_tokens] using hdrop)).1
      have hfail : expect_statement tokens index errors
          = MatchResult.result none 0
              (errors ++ [(make_error "expected return keyword" index tokens MsgType.GOT,
                index)]) := by
        unfold expect_statement expect_return
        rw [if_neg (by rw [kind_at, h1]; simpa using ht)]
        rfl
      refine ⟨(make_error "expected return keyword" index tokens MsgType.GOT, index), ?_⟩
      rw [statement_loop_fail nodes hfail]
      simp
  | s :: tl, tokens, index, nodes, errors, t, rest, hs, hdrop, ht => by
      obtain ⟨hk1, hk2, hk3⟩ := hs s (by simp)
      rw [body_tokens_cons] at hdrop
      have f1 := drop_cons_facts hdrop
      have f2 := drop_cons_facts f1.2
      have f3 := drop_cons_facts f2.2
      have c1 : kind_at tokens index = some TokenKind.return_kw := by
        rw [kind_at, f1.1]
        simp [hk1]
      have hexp : expect_expression tokens (index + 1) errors
          = MatchResult.result (some (ASTNode.NumberNode s.2.1)) (index + 1 + 1) errors := by
        unfold expect_expression
        rw [f2.1]
        simp [hk2]
      have c3 : kind_at tokens (index + 1 + 1) = some TokenKind.semicolon := by
        rw [kind_at, f3.1]
        simp [hk3]
      have hstep : expect_statement tokens index errors
          = MatchResult.result (some (ASTNode.ReturnNode (ASTNode.NumberNode s.2.1)))
              (index + 1 + 1 + 1) errors := by
        unfold expect_statement expect_return
        rw [if_pos c1, hexp]
        simp [c3]
      obtain ⟨e, he⟩ := statement_loop_grammar tl tokens (index + 1 + 1 + 1)
        (nodes ++ [ASTNode.ReturnNode (ASTNode.NumberNode s.2.1)]) errors t rest
        (fun x hx => hs x (by simp [hx])) f3.2 ht
      refine ⟨e, ?_⟩
      rw [statement_loop_succ nodes hstep, he]
      have harr : index + 1 + 1 + 1 + 3 * tl.length = index + 3 * (s :: tl).length := by
        simp only [List.length_cons]
        omega
      have hnodes : (nodes ++ [ASTNode.ReturnNode (ASTNode.NumberNode s.2.1)])
          ++ tl.map (fun s => ASTNode.ReturnNode (ASTNode.NumberNode s.2.1))
          = nodes ++ (s :: tl).map (fun s => ASTNode.ReturnNode (ASTNode.NumberNode s.2.1)) := by
        simp
      rw [harr, hnodes]

/-- C3: every token sequence generated by the §6 grammar parses successfully:
for arbitrary tokens carrying the kinds
`int main ( ) \x7b (return NUMBER ;)* \x7d`, `parse` returns a ProgramRoot
whose statements are, in order, `ReturnNode (NumberNode n_i)` for the i-th
literal token `n_i`. -/
theorem parse_grammar (t1 t2 t3 t4 t5 tz : Token)
    (stmts : List (Token × Token × Token)) (errors : Errors)
    (h1 : t1.kind = TokenKind.int_kw) (h2 : t2.kind = TokenKind.main)
    (h3 : t3.kind = TokenKind.open_paren) (h4 : t4.kind = TokenKind.close_paren)
    (h5 : t5.kind = TokenKind.open_brack) (hz : tz.kind = TokenKind.close_brack)
    (hs : ∀ s ∈ stmts, s.1.kind = TokenKind.return_kw ∧ s.2.1.kind = TokenKind.number
        ∧ s.2.2.kind = TokenKind.semicolon) :
    ∃ errors2,
      parse ([t1, t2, t3, t4, t5] ++ body_tokens stmts ++ [tz]) errors
        = ParseOut.returned
            (ASTNode.MainNode
              (stmts.map (fun s => ASTNode.ReturnNode (ASTNode.NumberNode s.2.1))))
            errors2 := by
  obtain ⟨tokens, htoks⟩ : ∃ l, l = [t1, t2, t3, t4, t5] ++ body_tokens stmts ++ [tz] :=
    ⟨_, rfl⟩
  rw [← htoks]
  have hlen : tokens.length = 5 + 3 * stmts.length + 1 := by
    rw [htoks]
    simp [body_tokens_length]
    omega
  have hms : match_tokens (tokens.drop 0) kinds_before = 5 := by
    rw [List.drop_zero, htoks]
    unfold match_tokens
    rw [if_neg (by simp [kinds_before]),
        if_pos (by simp [kinds_before, h1, h2, h3, h4, h5])]
    rfl
  have hdrop5 : tokens.drop 5 = body_tokens stmts ++ tz :: [] := by
    rw [htoks]
    exact List.drop_left [t1, t2, t3, t4, t5] _
  obtain ⟨e, hloop⟩ := statement_loop_grammar stmts tokens 5 [] errors tz []
    hs hdrop5 (by rw [hz]; simp)
  have hmain := expect_main_of_loop_result tokens 0 errors hms (by omega) hloop
  have hcb : kind_at tokens (5 + 3 * stmts.length) = some TokenKind.close_brack := by
    have hd : tokens.drop (5 + 3 * stmts.length) = [tz] := by
      calc tokens.drop (5 + 3 * stmts.length)
          = (tokens.drop 5).drop (3 * stmts.length) := by rw [List.drop_drop]
        _ = (body_tokens stmts ++ [tz]).drop (body_tokens stmts).length := by
              rw [hdrop5, body_tokens_length]
        _ = [tz] := List.drop_left _ _
    rw [kind_at, (drop_cons_facts hd).1]
    simp [hz]
  rw [if_pos hcb] at hmain
  have hparse := parse_of_main_some hmain
  rw [if_neg (by
    simp only [ne_eq, not_not]
    rw [List.drop_eq_nil_iff]
    omega)] at hparse
  exact ⟨errors ++ [e], hparse⟩

/-- Witness for C3's theorem: the concrete tokens of
`int main ( ) \x7b return 4 ; \x7d` yield a ProgramRoot containing one
ReturnStatement containing one NumberLiteral holding the token `4`. -/
theorem parse_grammar_witness :
    ∃ errors2, parse toksGood []
      = ParseOut.returned
          (ASTNode.MainNode [ASTNode.ReturnNode (ASTNode.NumberNode tkFour)]) errors2 :=
  parse_grammar tkInt tkMain tkOpenParen tkCloseParen tkOpenBrack tkCloseBrack
    [(tkReturn, tkFour, tkSemi)] [] rfl rfl rfl rfl rfl rfl (by decide)

end ShivyC
